import Mathlib

/-!
Verification development for the kawaii-voice-changer core
(src/kawaii_voice_changer/core/audio_processor.py and audio_player.py).

Audio samples and float parameters are modelled as rationals; external
library calls (pyworld analysis and synthesis, float32 rounding of the
numpy astype conversion) are modelled as explicit function parameters
bundled in the Extern structure, since they are not code of this
repository.  Everything else is translated directly from the source.
-/

set_option autoImplicit false

namespace KawaiiVoice

/-- The Python int conversion of a float: truncation toward zero. -/
def py_int (q : ℚ) : ℤ :=
  if 0 ≤ q then ⌊q⌋ else ⌈q⌉

/-- The numpy clip function on scalars: minimum(hi, maximum(x, lo)). -/
def np_clip (x lo hi : ℚ) : ℚ :=
  min hi (max x lo)

/-- The numpy clip function applied to an integer sample index. -/
def np_clip_int (x lo hi : ℤ) : ℤ :=
  min hi (max x lo)

/-- The numpy linspace function: n evenly spaced points from a to b inclusive
    (a single point is a itself). -/
def np_linspace (a b : ℚ) (n : ℕ) : List ℚ :=
  if n ≤ 1 then (List.range n).map (fun _ => a)
  else (List.range n).map (fun i => a + (b - a) * i / ((n : ℚ) - 1))

/-- The numpy interp function at one query point x, over sample points given
    as (xp, fp) pairs with xp increasing; lval and rval are the left and
    right fill values. -/
def np_interp (x lval rval : ℚ) : List (ℚ × ℚ) → ℚ
  | [] => lval
  | [p] => if x < p.1 then lval else if p.1 < x then rval else p.2
  | p :: q :: rest =>
      if x < p.1 then lval
      else if x ≤ q.1 then
        if p.1 = q.1 then p.2
        else p.2 + (q.2 - p.2) * (x - p.1) / (q.1 - p.1)
      else np_interp x lval rval (q :: rest)

/-- Result of the three pyworld analysis stages (dio+stonemask, cheaptrick, d4c). -/
structure Analysis where
  f0 : List ℚ
  t : List ℚ
  sp : List (List ℚ)
  ap : List (List ℚ)
deriving DecidableEq

/-- External collaborators: pyworld synthesis, per-sample float32 rounding of
    the numpy astype conversion, and the pyworld analysis pipeline (returning
    none when a pyworld call raises, e.g. on an empty signal). -/
structure Extern where
  synthesize : List ℚ → List (List ℚ) → List (List ℚ) → ℕ → List ℚ
  r32 : ℚ → ℚ
  analyze : List ℚ → ℕ → Option Analysis

/-- State of AudioProcessor (audio_processor.py, constructor lines 18-43).
    The formant_ratios dict with fixed keys f1, f2, f3 is modelled as three
    fields. -/
structure ProcState where
  sample_rate : ℕ
  audio_data : Option (List ℚ)
  original_f0 : Option (List ℚ)
  original_sp : Option (List (List ℚ))
  original_ap : Option (List (List ℚ))
  time_axis : Option (List ℚ)
  f0_ratio : ℚ
  f1 : ℚ
  f2 : ℚ
  f3 : ℚ
  formant_link : Bool
  bypass_mode : Bool
  processed_audio : Option (List ℚ)
  cache_valid : Bool
deriving DecidableEq

/-- Freshly constructed AudioProcessor. -/
def init_state (sample_rate : ℕ) : ProcState :=
  { sample_rate := sample_rate, audio_data := none, original_f0 := none,
    original_sp := none, original_ap := none, time_axis := none,
    f0_ratio := 1, f1 := 1, f2 := 1, f3 := 1,
    formant_link := true, bypass_mode := false,
    processed_audio := none, cache_valid := false }

/-- Lookup in the formant_ratios dict (none when the key is not f1, f2 or f3). -/
def get_formant (s : ProcState) (f : String) : Option ℚ :=
  if f = "f1" then some s.f1
  else if f = "f2" then some s.f2
  else if f = "f3" then some s.f3
  else none

/-- Assignment formant_ratios[f] = v (no effect on an unknown key). -/
def set_formant_val (s : ProcState) (f : String) (v : ℚ) : ProcState :=
  if f = "f1" then { s with f1 := v }
  else if f = "f2" then { s with f2 := v }
  else if f = "f3" then { s with f3 := v }
  else s

/-- AudioProcessor.set_f0_ratio (lines 105-114): compares the raw argument
    with the stored value and, on difference, stores the clipped value and
    invalidates the cache. -/
def set_f0_ratio (s : ProcState) (ratio : ℚ) : ProcState :=
  if s.f0_ratio ≠ ratio then
    { s with f0_ratio := np_clip ratio (1/2) 2, cache_valid := false }
  else s

/-- AudioProcessor.set_formant_ratio (lines 116-136). -/
def set_formant_ratio (s : ProcState) (f : String) (ratio : ℚ) : ProcState :=
  match get_formant s f with
  | none => s
  | some old_ratio =>
    let new_ratio := np_clip ratio (1/2) 2
    if old_ratio ≠ new_ratio then
      let s1 := set_formant_val s f new_ratio
      let s2 := if s1.formant_link then
          { s1 with f1 := new_ratio, f2 := new_ratio, f3 := new_ratio }
        else s1
      { s2 with cache_valid := false }
    else s

/-- AudioProcessor.set_formant_link (lines 138-151): when turning the link on,
    all formants are unified to the f1 value and the cache is invalidated. -/
def set_formant_link (s : ProcState) (linked : Bool) : ProcState :=
  let s1 := { s with formant_link := linked }
  if linked then
    { s1 with f1 := s1.f1, f2 := s1.f1, f3 := s1.f1, cache_valid := false }
  else s1

/-- AudioProcessor.set_bypass_mode (lines 153-161): stores the flag and always
    invalidates the cache. -/
def set_bypass_mode (s : ProcState) (enabled : Bool) : ProcState :=
  { s with bypass_mode := enabled, cache_valid := false }

/-- Parameter dictionary accepted by AudioProcessor.set_parameters; each key
    may be absent, and formant_ratios carries dict items in iteration order. -/
structure Params where
  f0_ratio : Option ℚ
  formant_ratios : Option (List (String × ℚ))
  formant_link : Option Bool
deriving DecidableEq

/-- The loop over params["formant_ratios"].items() in set_parameters
    (lines 416-418): each valid key is clipped and stored as given. -/
def apply_ratio_items (s : ProcState) : List (String × ℚ) → ProcState
  | [] => s
  | (f, ratio) :: rest =>
      apply_ratio_items
        (if (get_formant s f).isSome then set_formant_val s f (np_clip ratio (1/2) 2) else s)
        rest

/-- AudioProcessor.set_parameters (lines 405-423). -/
def set_parameters (s : ProcState) (p : Params) : ProcState :=
  let s1 := match p.f0_ratio with
    | some r => { s with f0_ratio := np_clip r (1/2) 2 }
    | none => s
  let s2 := match p.formant_ratios with
    | some items => apply_ratio_items s1 items
    | none => s1
  let s3 := match p.formant_link with
    | some b => { s2 with formant_link := b }
    | none => s2
  { s3 with cache_valid := false }

/-- AudioProcessor.duration (lines 425-434). -/
def duration (s : ProcState) : ℚ :=
  match s.audio_data with
  | none => 0
  | some a => (a.length : ℚ) / (s.sample_rate : ℚ)

/-- One row of AudioProcessor._shift_formants (lines 163-195): remap bin j to
    source bin j / ratio by linear interpolation, clamping reads to the first
    and last bin value. -/
def shift_row (ratio : ℚ) (row : List ℚ) : List ℚ :=
  let n := row.length
  let pts := (((List.range n).map (fun k => (k : ℚ) / ratio)).zip row)
  (List.range n).map (fun j => np_interp (j : ℚ) (row.headD 0) (row.getLastD 0) pts)

/-- AudioProcessor._shift_formants. -/
def shift_formants (sp : List (List ℚ)) (ratio : ℚ) : List (List ℚ) :=
  if ratio = 1 then sp else sp.map (shift_row ratio)

/-- Indices at which a boolean mask holds (numpy where). -/
def mask_indices (mask : List Bool) : List ℕ :=
  (List.range mask.length).filter (fun i => mask.getD i false)

/-- Fancy-indexing read xs[idxs]. -/
def gather (xs : List ℚ) (idxs : List ℕ) : List ℚ :=
  idxs.map (fun i => xs.getD i 0)

/-- Fancy-indexing write xs[idxs] = vals. -/
def scatter (xs : List ℚ) (idxs : List ℕ) (vals : List ℚ) : List ℚ :=
  (idxs.zip vals).foldl (fun acc iv => acc.set iv.1 iv.2) xs

/-- AudioProcessor._apply_local_shift (lines 276-330): shift a local region of
    the spectrum, with a short linear fade at both boundaries of regions of
    more than 10 bins. -/
def apply_local_shift (spectrum : List ℚ) (indices : List ℕ) (ratio : ℚ) : List ℚ :=
  if ratio = 1 then spectrum
  else
    let local_spectrum := gather spectrum indices
    let m := local_spectrum.length
    let pts := (((List.range m).map (fun k => (k : ℚ) / ratio)).zip local_spectrum)
    let shifted_local := (List.range m).map
      (fun j => np_interp (j : ℚ) (local_spectrum.headD 0) (local_spectrum.getLastD 0) pts)
    let blended :=
      if 10 < indices.length then
        let fade_length := min 5 (indices.length / 4)
        let fade_in := np_linspace 0 1 fade_length
        let fade_out := np_linspace 1 0 fade_length
        let head_orig := gather spectrum (indices.take fade_length)
        let head_new := shifted_local.take fade_length
        let blend_head := (List.zip (List.zip head_orig head_new) fade_in).map
          (fun z => z.1.1 * (1 - z.2) + z.1.2 * z.2)
        let tail_orig := gather spectrum (indices.drop (indices.length - fade_length))
        let tail_new := shifted_local.drop (m - fade_length)
        let blend_tail := (List.zip (List.zip tail_orig tail_new) fade_out).map
          (fun z => z.1.1 * (1 - z.2) + z.1.2 * z.2)
        blend_head ++ ((shifted_local.drop fade_length).take (m - 2 * fade_length)) ++ blend_tail
      else shifted_local
    scatter spectrum indices blended

/-- Membership of a frequency in a closed band. -/
def in_band (x lo hi : ℚ) : Bool :=
  decide (lo ≤ x) && decide (x ≤ hi)

/-- One frame of AudioProcessor._shift_formants_independent (lines 197-274):
    shift the F1, F2, F3 bands with their own ratios, averaging where the
    shifted band overlaps the previous one. -/
def shift_frame_independent (sr : ℕ) (r1 r2 r3 : ℚ) (row : List ℚ) : List ℚ :=
  let n := row.length
  let freqs := np_linspace 0 ((sr : ℚ) / 2) n
  let f1_mask := freqs.map (fun fq => in_band fq 200 1000)
  let f2_mask := freqs.map (fun fq => in_band fq 800 2500)
  let f3_mask := freqs.map (fun fq => in_band fq 2000 4000)
  let step1 :=
    if f1_mask.any id then
      let idxs := mask_indices f1_mask
      let shifted := apply_local_shift row idxs r1
      scatter row idxs (gather shifted idxs)
    else row
  let step2 :=
    if f2_mask.any id then
      let idxs := mask_indices f2_mask
      let shifted := apply_local_shift step1 idxs r2
      let overlap := List.zipWith (· && ·) f1_mask f2_mask
      if overlap.any id then
        let oidx := mask_indices overlap
        scatter step1 oidx
          ((List.zip (gather step1 oidx) (gather shifted oidx)).map (fun z => (z.1 + z.2) / 2))
      else scatter step1 idxs (gather shifted idxs)
    else step1
  let step3 :=
    if f3_mask.any id then
      let idxs := mask_indices f3_mask
      let shifted := apply_local_shift step2 idxs r3
      let overlap := List.zipWith (· && ·) f2_mask f3_mask
      if overlap.any id then
        let oidx := mask_indices overlap
        scatter step2 oidx
          ((List.zip (gather step2 oidx) (gather shifted oidx)).map (fun z => (z.1 + z.2) / 2))
      else scatter step2 idxs (gather shifted idxs)
    else step2
  step3

/-- AudioProcessor._shift_formants_independent. -/
def shift_formants_independent (sr : ℕ) (r1 r2 r3 : ℚ) (sp : List (List ℚ)) : List (List ℚ) :=
  sp.map (shift_frame_independent sr r1 r2 r3)

/-- AudioProcessor._process_audio (lines 332-368). -/
def process_audio (E : Extern) (s : ProcState) : List ℚ :=
  match s.original_f0, s.audio_data with
  | some f0, some audio =>
    if s.bypass_mode then audio.map E.r32
    else
      let modified_f0 := f0.map (fun v => v * s.f0_ratio)
      match s.original_sp with
      | none => []
      | some sp =>
        let modified_sp :=
          if s.formant_link then shift_formants sp s.f1
          else shift_formants_independent s.sample_rate s.f1 s.f2 s.f3 sp
        (E.synthesize modified_f0 modified_sp (s.original_ap.getD []) s.sample_rate).map E.r32
  | _, _ => []

/-- AudioProcessor.get_processed_audio (lines 370-385): recompute under an
    invalid cache, then return the cached buffer (empty when absent).  The
    state component carries the cache mutation. -/
def get_processed_audio (E : Extern) (s : ProcState) : ProcState × List ℚ :=
  let s1 := if s.cache_valid then s
    else { s with processed_audio := some (process_audio E s), cache_valid := true }
  (s1, s1.processed_audio.getD [])

/-- Result of soundfile read: a mono signal or per-sample channel rows. -/
inductive ReadData where
  | mono (samples : List ℚ)
  | multi (frames : List (List ℚ))
deriving DecidableEq

/-- Stereo-to-mono conversion of load_audio (numpy mean over axis 1). -/
def to_mono : ReadData → List ℚ
  | .mono xs => xs
  | .multi rows => rows.map (fun row => row.sum / (row.length : ℚ))

/-- Linear-interpolation resampling of load_audio (lines 64-71). -/
def resample (data : List ℚ) (file_sr target_sr : ℕ) : List ℚ :=
  let ratio : ℚ := (target_sr : ℚ) / (file_sr : ℚ)
  let new_length := (py_int ((data.length : ℚ) * ratio)).toNat
  let xs := np_linspace 0 ((data.length : ℚ) - 1) new_length
  let pts := (((List.range data.length).map (fun k => (k : ℚ))).zip data)
  xs.map (fun x => np_interp x (data.headD 0) (data.getLastD 0) pts)

/-- The mono conversion and resampling applied by load_audio to a successful
    read before the audio_data assignment takes its final value. -/
def load_convert (s : ProcState) (d : ReadData) (file_sr : ℕ) : List ℚ :=
  let m := to_mono d
  if file_sr ≠ s.sample_rate then resample m file_sr s.sample_rate else m

/-- AudioProcessor.load_audio (lines 45-83).  read_res models the outcome of
    the soundfile read (none when it raises); a raising pyworld analysis is
    modelled by E.analyze returning none, in which case audio_data has
    already been reassigned and the analysis fields keep their prior values,
    exactly as in the source where the assignment precedes _analyze_audio. -/
def load_audio (E : Extern) (s : ProcState) (read_res : Option (ReadData × ℕ)) :
    ProcState × Bool :=
  match read_res with
  | none => (s, false)
  | some (d, file_sr) =>
    let new_audio := load_convert s d file_sr
    let s1 := { s with audio_data := some new_audio }
    match E.analyze new_audio s.sample_rate with
    | none => (s1, false)
    | some a =>
      ({ s1 with original_f0 := some a.f0, time_axis := some a.t,
                 original_sp := some a.sp, original_ap := some a.ap,
                 cache_valid := false }, true)

/-- State of AudioPlayer (audio_player.py, constructor lines 19-43); the
    processor reference is passed explicitly to each operation. -/
structure PlayerState where
  buffer_size : ℕ
  is_playing : Bool
  loop_enabled : Bool
  loop_start : ℤ
  loop_end : ℤ
  loop_crossfade_ms : ℚ
  volume : ℚ
  play_position : ℤ
deriving DecidableEq

/-- Freshly constructed AudioPlayer. -/
def init_player (buffer_size : ℕ) : PlayerState :=
  { buffer_size := buffer_size, is_playing := false, loop_enabled := true,
    loop_start := 0, loop_end := 0, loop_crossfade_ms := 50, volume := 1,
    play_position := 0 }

/-- AudioPlayer.get_position (lines 225-232): play position over the nominal
    processor sample rate, in seconds. -/
def get_position (s : ProcState) (pl : PlayerState) : ℚ :=
  (pl.play_position : ℚ) / (s.sample_rate : ℚ)

/-- AudioPlayer.seek (lines 234-243): seconds times the nominal processor
    sample rate, truncated, then clipped to [0, audio_length - 1]. -/
def seek (E : Extern) (s : ProcState) (pl : PlayerState) (position_sec : ℚ) :
    ProcState × PlayerState :=
  let res := get_processed_audio E s
  let audio_length : ℤ := (res.2.length : ℤ)
  let sample_position := py_int (position_sec * (s.sample_rate : ℚ))
  (res.1, { pl with play_position := np_clip_int sample_position 0 (audio_length - 1) })

/-- Effective sample rate used by set_loop_region and get_loop_region
    (lines 261-267): processed length over original duration, with the
    nominal rate as fallback. -/
def eff_sample_rate (s : ProcState) (audio_length : ℕ) : ℚ :=
  if 0 < duration s then (audio_length : ℚ) / duration s else (s.sample_rate : ℚ)

/-- AudioPlayer.set_loop_region (lines 245-284). -/
def set_loop_region (E : Extern) (s : ProcState) (pl : PlayerState)
    (start_time end_time : ℚ) : ProcState × PlayerState :=
  let st := max 0 start_time
  let res := get_processed_audio E s
  let audio_length := res.2.length
  if 0 < audio_length then
    let esr := eff_sample_rate s audio_length
    let ls0 := py_int (st * esr)
    let le0 := if 0 < end_time then py_int (end_time * esr) else 0
    let ls1 := max 0 (min ls0 ((audio_length : ℤ) - 1))
    let le1 := if 0 < le0 then max (ls1 + 1) (min le0 (audio_length : ℤ)) else le0
    if 0 < le1 ∧ le1 < ls1 then
      (res.1, { pl with loop_start := le1, loop_end := ls1 })
    else
      (res.1, { pl with loop_start := ls1, loop_end := le1 })
  else
    (res.1, { pl with loop_start := 0, loop_end := 0 })

/-- AudioPlayer.get_loop_region (lines 303-328). -/
def get_loop_region (E : Extern) (s : ProcState) (pl : PlayerState) :
    ProcState × (ℚ × ℚ) :=
  let res := get_processed_audio E s
  let audio_length := res.2.length
  if 0 < audio_length then
    let esr := eff_sample_rate s audio_length
    (res.1, ((pl.loop_start : ℚ) / esr,
             if 0 < pl.loop_end then (pl.loop_end : ℚ) / esr else 0))
  else
    (res.1, (0, 0))

/-- AudioPlayer.set_loop_crossfade (lines 286-293). -/
def set_loop_crossfade (pl : PlayerState) (crossfade_ms : ℚ) : PlayerState :=
  { pl with loop_crossfade_ms := np_clip crossfade_ms 0 500 }

/-- AudioPlayer.clear_loop_region (lines 330-335). -/
def clear_loop_region (pl : PlayerState) : PlayerState :=
  { pl with loop_start := 0, loop_end := 0 }

/-- A Python slice bound resolved against a sequence of length n: negative
    bounds count from the end, then the bound is clamped into [0, n]. -/
def py_bound (n : ℕ) (i : ℤ) : ℕ :=
  (max 0 (min (if i < 0 then i + (n : ℤ) else i) (n : ℤ))).toNat

/-- The Python slice xs[a:b]. -/
def py_slice (xs : List ℚ) (a b : ℤ) : List ℚ :=
  let lo := py_bound xs.length a
  let hi := py_bound xs.length b
  (xs.drop lo).take (hi - lo)

/-- Slice assignment out[start : start + vals.length] = vals, keeping the
    buffer length fixed. -/
def write_slice (out : List ℚ) (start : ℕ) (vals : List ℚ) : List ℚ :=
  out.take start ++ vals.take (out.length - start) ++ out.drop (start + vals.length)

/-- In-place modification of the slice out[start : start + len] by f. -/
def mod_slice (out : List ℚ) (start len : ℕ) (f : List ℚ → List ℚ) : List ℚ :=
  out.take start ++ f ((out.drop start).take len) ++ out.drop (start + len)

/-- The while loop of the audio callback (lines 120-126) filling the rest of
    the block from loop_start in chunks of at most loop_length samples; fuel
    bounds the iteration count (remaining shrinks by at least one per step
    whenever loop_length is positive). -/
def fill_chunks (audio : List ℚ) (vol : ℚ) (ls ll : ℤ) :
    ℕ → List ℚ → ℤ → ℤ → List ℚ
  | 0, out, _, _ => out
  | fuel + 1, out, pos, remaining =>
      if 0 < remaining then
        let chunk := min remaining ll
        let out1 := write_slice out (py_bound out.length pos)
          ((py_slice audio ls (ls + chunk)).map (fun v => v * vol))
        fill_chunks audio vol ls ll fuel out1 (pos + chunk) (remaining - chunk)
      else out

/-- Result of one audio callback invocation: the filled block, the new play
    position, and the crossfade sample count computed in the loop-wrap branch
    (0 in every other branch). -/
structure CallbackResult where
  out : List ℚ
  play_position : ℤ
  crossfade_len : ℤ
deriving DecidableEq

/-- Effective loop end of the audio callback (line 72). -/
def eff_loop_end (pl : PlayerState) (audio_length : ℕ) : ℤ :=
  if 0 < pl.loop_end then pl.loop_end else (audio_length : ℤ)

/-- Effective loop start of the audio callback (line 73). -/
def eff_loop_start (pl : PlayerState) (audio_length : ℕ) : ℤ :=
  min pl.loop_start (eff_loop_end pl audio_length - 1)

/-- AudioPlayer._audio_callback body for a non-empty processed buffer
    (lines 70-161), producing the block of the given frame count.  The stop
    call of the no-loop exhaustion branch only touches stream state outside
    this position computation and is not modelled. -/
def audio_callback_core (sr : ℕ) (pl : PlayerState) (audio : List ℚ) (frames : ℕ) :
    CallbackResult :=
  let len_audio : ℤ := (audio.length : ℤ)
  let loop_end := eff_loop_end pl audio.length
  let loop_start := eff_loop_start pl audio.length
  let samples_needed : ℤ := (frames : ℤ)
  let out0 : List ℚ := List.replicate frames 0
  if pl.loop_enabled = true ∧ loop_start ≤ pl.play_position then
    let samples_available := loop_end - pl.play_position
    if samples_needed ≤ samples_available then
      { out := (py_slice audio pl.play_position (pl.play_position + samples_needed)).map
          (fun v => v * pl.volume),
        play_position := pl.play_position + samples_needed, crossfade_len := 0 }
    else
      let out1 := if 0 < samples_available then
          write_slice out0 0 ((py_slice audio pl.play_position loop_end).map
            (fun v => v * pl.volume))
        else out0
      let remaining := samples_needed - samples_available
      let loop_length := loop_end - loop_start
      if 0 < loop_length then
        let cf0 := py_int (pl.loop_crossfade_ms * (sr : ℚ) / 1000)
        let cf := min cf0 (min samples_available (Int.fdiv loop_length 4))
        let out2 :=
          if 0 < samples_available ∧ 0 < cf then
            let fade_out := np_linspace 1 0 cf.toNat
            let fade_in := np_linspace 0 1 cf.toNat
            let loop_audio := (py_slice audio loop_start (loop_start + cf)).map
              (fun v => v * pl.volume)
            let start_idx := (samples_available - cf).toNat
            mod_slice out1 start_idx cf.toNat (fun seg =>
              List.zipWith (fun a b => a + b)
                (List.zipWith (fun a b => a * b) seg fade_out)
                (List.zipWith (fun a b => a * b) loop_audio fade_in))
          else out1
        let out3 := fill_chunks audio pl.volume loop_start loop_length
          remaining.toNat out2 samples_available remaining
        { out := out3,
          play_position := loop_start + Int.emod (samples_needed - samples_available) loop_length,
          crossfade_len := cf }
      else
        { out := write_slice out1 (py_bound out1.length samples_available)
            (List.replicate (out1.length - py_bound out1.length samples_available) 0),
          play_position := loop_end, crossfade_len := 0 }
  else
    let samples_available := len_audio - pl.play_position
    if samples_needed ≤ samples_available then
      { out := (py_slice audio pl.play_position (pl.play_position + samples_needed)).map
          (fun v => v * pl.volume),
        play_position := pl.play_position + samples_needed, crossfade_len := 0 }
    else
      let out1 := if 0 < samples_available then
          write_slice out0 0 ((py_slice audio pl.play_position len_audio).map
            (fun v => v * pl.volume))
        else out0
      if pl.loop_enabled then
        let remaining := samples_needed - samples_available
        { out := write_slice out1 (py_bound out1.length samples_available)
            ((py_slice audio loop_start (loop_start + remaining)).map (fun v => v * pl.volume)),
          play_position := loop_start + remaining, crossfade_len := 0 }
      else
        { out := write_slice out1 (py_bound out1.length samples_available)
            (List.replicate (out1.length - py_bound out1.length samples_available) 0),
          play_position := len_audio, crossfade_len := 0 }

/-- AudioPlayer._audio_callback (lines 45-161): fetch the processed audio,
    output silence when it is empty, otherwise run the fill state machine. -/
def audio_callback (E : Extern) (s : ProcState) (pl : PlayerState) (frames : ℕ) :
    ProcState × PlayerState × List ℚ :=
  let res := get_processed_audio E s
  if res.2.length = 0 then (res.1, pl, List.replicate frames 0)
  else
    let cr := audio_callback_core s.sample_rate pl res.2 frames
    (res.1, { pl with play_position := cr.play_position }, cr.out)

/-- Processor states reachable from a fresh processor through the public
    mutation API: the four parameter setters, bulk set_parameters, cache
    refreshing reads, loads whose analysis succeeds, and loads whose file
    read raises. -/
inductive Reachable (E : Extern) (sr : ℕ) : ProcState → Prop where
  | init : Reachable E sr (init_state sr)
  | stepF0 {s : ProcState} (r : ℚ) :
      Reachable E sr s → Reachable E sr (set_f0_ratio s r)
  | stepFormant {s : ProcState} (f : String) (r : ℚ) :
      Reachable E sr s → Reachable E sr (set_formant_ratio s f r)
  | stepLink {s : ProcState} (b : Bool) :
      Reachable E sr s → Reachable E sr (set_formant_link s b)
  | stepBypass {s : ProcState} (b : Bool) :
      Reachable E sr s → Reachable E sr (set_bypass_mode s b)
  | stepParams {s : ProcState} (p : Params) :
      Reachable E sr s → Reachable E sr (set_parameters s p)
  | stepGet {s : ProcState} :
      Reachable E sr s → Reachable E sr (get_processed_audio E s).1
  | stepLoadOk {s : ProcState} (d : ReadData) (fsr : ℕ)
      (hok : (E.analyze (load_convert s d fsr) s.sample_rate).isSome) :
      Reachable E sr s → Reachable E sr (load_audio E s (some (d, fsr))).1
  | stepLoadReadFail {s : ProcState} :
      Reachable E sr s → Reachable E sr (load_audio E s none).1

/-- Fields untouched by every pure parameter mutation. -/
def SameCore (t s : ProcState) : Prop :=
  t.sample_rate = s.sample_rate ∧ t.audio_data = s.audio_data ∧
  t.original_f0 = s.original_f0 ∧ t.original_sp = s.original_sp ∧
  t.original_ap = s.original_ap ∧ t.processed_audio = s.processed_audio

theorem sameCore_refl (s : ProcState) : SameCore s s :=
  ⟨rfl, rfl, rfl, rfl, rfl, rfl⟩

theorem sameCore_trans {t u s : ProcState} (h1 : SameCore t u) (h2 : SameCore u s) :
    SameCore t s :=
  ⟨h1.1.trans h2.1, h1.2.1.trans h2.2.1, h1.2.2.1.trans h2.2.2.1,
   h1.2.2.2.1.trans h2.2.2.2.1, h1.2.2.2.2.1.trans h2.2.2.2.2.1,
   h1.2.2.2.2.2.trans h2.2.2.2.2.2⟩

theorem set_formant_val_sameCore (s : ProcState) (f : String) (v : ℚ) :
    SameCore (set_formant_val s f v) s ∧
    (set_formant_val s f v).cache_valid = s.cache_valid ∧
    (set_formant_val s f v).bypass_mode = s.bypass_mode ∧
    (set_formant_val s f v).f0_ratio = s.f0_ratio := by
  unfold set_formant_val
  split_ifs <;> exact ⟨sameCore_refl _, rfl, rfl, rfl⟩

theorem apply_ratio_items_sameCore (items : List (String × ℚ)) (s : ProcState) :
    SameCore (apply_ratio_items s items) s ∧
    (apply_ratio_items s items).cache_valid = s.cache_valid ∧
    (apply_ratio_items s items).bypass_mode = s.bypass_mode ∧
    (apply_ratio_items s items).f0_ratio = s.f0_ratio := by
  induction items generalizing s with
  | nil => exact ⟨sameCore_refl _, rfl, rfl, rfl⟩
  | cons hd tl ih =>
    unfold apply_ratio_items
    split
    · obtain ⟨hc, hv, hb, hr⟩ := ih (set_formant_val s hd.1 (np_clip hd.2 (1/2) 2))
      obtain ⟨hc2, hv2, hb2, hr2⟩ := set_formant_val_sameCore s hd.1 (np_clip hd.2 (1/2) 2)
      exact ⟨sameCore_trans hc hc2, hv.trans hv2, hb.trans hb2, hr.trans hr2⟩
    · exact ih s

/-- Invariant tying the cache to the parameters along reachable states: the
    analysis result is present exactly when audio is, a valid cache under
    bypass holds the float32 image of the loaded audio, and with no audio
    loaded the cache slot is empty or holds the empty buffer. -/
def CacheInv (E : Extern) (s : ProcState) : Prop :=
  (s.audio_data.isSome = s.original_f0.isSome) ∧
  (s.bypass_mode = true → s.cache_valid = true → ∀ a, s.audio_data = some a →
    s.processed_audio = some (a.map E.r32)) ∧
  (s.audio_data = none → s.processed_audio = none ∨ s.processed_audio = some [])

theorem cacheInv_of_invalidated (E : Extern) {s t : ProcState} (h : CacheInv E s)
    (hc : SameCore t s) (hv : t.cache_valid = false) : CacheInv E t := by
  obtain ⟨-, ha, hf0, -, -, hp⟩ := hc
  refine ⟨by rw [ha, hf0]; exact h.1, ?_, ?_⟩
  · intro _ hcv
    rw [hv] at hcv
    exact Bool.noConfusion hcv
  · intro hnone
    rw [hp]
    exact h.2.2 (ha ▸ hnone)

theorem cacheInv_set_f0_ratio (E : Extern) (s : ProcState) (r : ℚ)
    (h : CacheInv E s) : CacheInv E (set_f0_ratio s r) := by
  unfold set_f0_ratio
  split
  · exact cacheInv_of_invalidated E h (sameCore_refl s) rfl
  · exact h

theorem cacheInv_set_formant_ratio (E : Extern) (s : ProcState) (f : String) (r : ℚ)
    (h : CacheInv E s) : CacheInv E (set_formant_ratio s f r) := by
  unfold set_formant_ratio
  split
  · exact h
  · dsimp only
    split
    · obtain ⟨hc, -, -, -⟩ := set_formant_val_sameCore s f (np_clip r (1/2) 2)
      split
      · exact cacheInv_of_invalidated E h hc rfl
      · exact cacheInv_of_invalidated E h hc rfl
    · exact h

theorem cacheInv_set_formant_link (E : Extern) (s : ProcState) (b : Bool)
    (h : CacheInv E s) : CacheInv E (set_formant_link s b) := by
  unfold set_formant_link
  cases b
  · exact ⟨h.1, h.2.1, h.2.2⟩
  · exact cacheInv_of_invalidated E h (sameCore_refl s) rfl

theorem cacheInv_set_bypass_mode (E : Extern) (s : ProcState) (b : Bool)
    (h : CacheInv E s) : CacheInv E (set_bypass_mode s b) :=
  cacheInv_of_invalidated E h (sameCore_refl s) rfl

theorem cacheInv_set_parameters (E : Extern) (s : ProcState) (p : Params)
    (h : CacheInv E s) : CacheInv E (set_parameters s p) := by
  unfold set_parameters
  refine cacheInv_of_invalidated E h ?_ rfl
  rcases p.f0_ratio with _ | r <;> rcases p.formant_ratios with _ | items <;>
    rcases p.formant_link with _ | b <;>
    simp only <;>
    first
      | exact sameCore_refl s
      | exact (apply_ratio_items_sameCore items _).1

theorem process_audio_bypass (E : Extern) {s : ProcState} {a f0 : List ℚ}
    (hb : s.bypass_mode = true) (ha : s.audio_data = some a)
    (hf : s.original_f0 = some f0) : process_audio E s = a.map E.r32 := by
  unfold process_audio
  rw [ha, hf, hb]
  simp

theorem process_audio_no_audio (E : Extern) {s : ProcState}
    (ha : s.audio_data = none) : process_audio E s = [] := by
  unfold process_audio
  rw [ha]
  rcases s.original_f0 with _ | f0 <;> rfl

theorem cacheInv_get (E : Extern) (s : ProcState) (h : CacheInv E s) :
    CacheInv E (get_processed_audio E s).1 := by
  unfold get_processed_audio
  dsimp only
  split
  · exact h
  · refine ⟨h.1, ?_, ?_⟩
    · intro hb _ a ha
      replace hb : s.bypass_mode = true := hb
      replace ha : s.audio_data = some a := ha
      show some (process_audio E s) = some (a.map E.r32)
      rcases hf : s.original_f0 with _ | f0
      · exfalso
        have h1 := h.1
        rw [ha, hf] at h1
        exact Bool.noConfusion h1
      · rw [process_audio_bypass E hb ha hf]
    · intro hnone
      replace hnone : s.audio_data = none := hnone
      right
      show some (process_audio E s) = some []
      rw [process_audio_no_audio E hnone]

theorem cacheInv_load (E : Extern) (s : ProcState) (rr : Option (ReadData × ℕ))
    (hok : rr = none ∨ ∃ d fsr, rr = some (d, fsr) ∧
      (E.analyze (load_convert s d fsr) s.sample_rate).isSome)
    (h : CacheInv E s) : CacheInv E (load_audio E s rr).1 := by
  rcases hok with hnone | ⟨d, fsr, hrr, hsome⟩
  · subst hnone
    exact h
  · subst hrr
    unfold load_audio
    rcases ha : E.analyze (load_convert s d fsr) s.sample_rate with _ | a
    · rw [ha] at hsome
      exact Bool.noConfusion hsome
    · dsimp only
      rw [ha]
      refine ⟨rfl, ?_, ?_⟩
      · intro _ hcv
        exact Bool.noConfusion hcv
      · intro hn
        exact Option.noConfusion hn

theorem reachable_cacheInv {E : Extern} {sr : ℕ} {s : ProcState}
    (h : Reachable E sr s) : CacheInv E s := by
  induction h with
  | init => exact ⟨rfl, fun _ hcv => Bool.noConfusion hcv, fun _ => Or.inl rfl⟩
  | stepF0 r _ ih => exact cacheInv_set_f0_ratio _ _ r ih
  | stepFormant f r _ ih => exact cacheInv_set_formant_ratio _ _ f r ih
  | stepLink b _ ih => exact cacheInv_set_formant_link _ _ b ih
  | stepBypass b _ ih => exact cacheInv_set_bypass_mode _ _ b ih
  | stepParams p _ ih => exact cacheInv_set_parameters _ _ p ih
  | stepGet _ ih => exact cacheInv_get _ _ ih
  | stepLoadOk d fsr hok _ ih => exact cacheInv_load _ _ _ (Or.inr ⟨d, fsr, rfl, hok⟩) ih
  | stepLoadReadFail _ ih => exact cacheInv_load _ _ _ (Or.inl rfl) ih

/-- Concrete external collaborators used by closed instantiations: trivial
    synthesis, identity float32 rounding, and an analysis pipeline that
    always raises (as pyworld does on an empty signal). -/
def extern_stub : Extern :=
  { synthesize := fun _ _ _ _ => [], r32 := fun q => q, analyze := fun _ _ => none }

/-- External collaborators whose analysis pipeline always succeeds with a
    fixed small analysis result. -/
def extern_ok : Extern :=
  { synthesize := fun _ _ _ _ => [], r32 := fun q => q,
    analyze := fun _ _ => some { f0 := [0], t := [0], sp := [[1]], ap := [[0]] } }

/-- The individual parameter mutations of AudioProcessor other than the bulk
    set_parameters. -/
inductive ParamOp where
  | setF0 (r : ℚ)
  | setFormant (f : String) (r : ℚ)
  | setLink (b : Bool)
  | setBypass (b : Bool)

/-- Application of one individual parameter mutation. -/
def apply_param_op (s : ProcState) : ParamOp → ProcState
  | .setF0 r => set_f0_ratio s r
  | .setFormant f r => set_formant_ratio s f r
  | .setLink b => set_formant_link s b
  | .setBypass b => set_bypass_mode s b

/-- Application of a sequence of individual parameter mutations. -/
def apply_param_ops (s : ProcState) (ops : List ParamOp) : ProcState :=
  ops.foldl apply_param_op s

/-- Link-mode invariant of the spec: when formant_link is set, the three
    formant ratios agree. -/
def LinkInv (s : ProcState) : Prop :=
  s.formant_link = true → s.f1 = s.f2 ∧ s.f2 = s.f3

theorem linkInv_set_f0_ratio (s : ProcState) (r : ℚ) (h : LinkInv s) :
    LinkInv (set_f0_ratio s r) := by
  unfold set_f0_ratio
  split
  · exact h
  · exact h

theorem linkInv_set_formant_ratio (s : ProcState) (f : String) (r : ℚ) (h : LinkInv s) :
    LinkInv (set_formant_ratio s f r) := by
  unfold set_formant_ratio
  split
  · exact h
  · dsimp only
    split
    · split
      · exact fun _ => ⟨rfl, rfl⟩
      · rename_i hnl
        intro hl
        exact absurd hl hnl
    · exact h

theorem linkInv_set_formant_link (s : ProcState) (b : Bool) (h : LinkInv s) :
    LinkInv (set_formant_link s b) := by
  unfold set_formant_link
  cases b
  · exact fun hl => absurd hl (by exact fun hc => Bool.noConfusion hc)
  · exact fun _ => ⟨rfl, rfl⟩

theorem linkInv_set_bypass_mode (s : ProcState) (b : Bool) (h : LinkInv s) :
    LinkInv (set_bypass_mode s b) :=
  h

/-- C1 (amended): the link invariant (formant_link set implies all three
    formant ratios equal) is established by the constructor and preserved by
    every sequence of set_f0_ratio, set_formant_ratio, set_formant_link and
    set_bypass_mode mutations; the bulk set_parameters is excluded because it
    stores its clipped incoming ratios verbatim even when formant_link is or
    stays true. -/
theorem formant_link_invariant (s : ProcState) (ops : List ParamOp) (h : LinkInv s) :
    LinkInv (apply_param_ops s ops) := by
  induction ops generalizing s with
  | nil => exact h
  | cons op tl ih =>
    show LinkInv (apply_param_ops (apply_param_op s op) tl)
    refine ih _ ?_
    cases op with
    | setF0 r => exact linkInv_set_f0_ratio s r h
    | setFormant f r => exact linkInv_set_formant_ratio s f r h
    | setLink b => exact linkInv_set_formant_link s b h
    | setBypass b => exact linkInv_set_bypass_mode s b h

/-- Witness for C1: a concrete mutation sequence from the fresh state keeps
    the link invariant. -/
theorem formant_link_invariant_witness :
    LinkInv (apply_param_ops (init_state 44100)
      [ParamOp.setFormant "f2" (3/2), ParamOp.setLink true, ParamOp.setF0 2]) :=
  formant_link_invariant (init_state 44100)
    [ParamOp.setFormant "f2" (3/2), ParamOp.setLink true, ParamOp.setF0 2]
    (fun _ => ⟨rfl, rfl⟩)

/-- Counterexample for C1 as stated: set_parameters with formant_link left
    true and an unequal formant_ratios entry leaves the stored ratios
    unequal, breaking the claimed invariant. -/
theorem formant_link_counterexample :
    (set_parameters (init_state 44100)
      { f0_ratio := none, formant_ratios := some [("f2", 3/2)],
        formant_link := none }).formant_link = true ∧
    (set_parameters (init_state 44100)
      { f0_ratio := none, formant_ratios := some [("f2", 3/2)],
        formant_link := none }).f1 ≠
      (set_parameters (init_state 44100)
        { f0_ratio := none, formant_ratios := some [("f2", 3/2)],
          formant_link := none }).f2 := by
  constructor
  · rfl
  · show (1 : ℚ) ≠ np_clip (3/2) (1/2) 2
    norm_num [np_clip, max_def, min_def]

/-- C2 (amended): set_f0_ratio invalidates the cache exactly when the raw
    argument differs from the stored value, so an out-of-range argument that
    clamps back to the stored value still invalidates; set_formant_ratio of a
    valid key invalidates exactly when the clipped value differs from the
    stored named ratio and otherwise changes nothing; set_bypass_mode and
    set_parameters invalidate unconditionally, even when no stored value
    changes.  Every mutation that changes a stored value does invalidate. -/
theorem cache_invalidation (s : ProcState) (r : ℚ) (f : String) (v : ℚ)
    (b : Bool) (p : Params) :
    (r ≠ s.f0_ratio → (set_f0_ratio s r).cache_valid = false) ∧
    (r = s.f0_ratio → set_f0_ratio s r = s) ∧
    ((set_f0_ratio s r).f0_ratio ≠ s.f0_ratio → (set_f0_ratio s r).cache_valid = false) ∧
    (get_formant s f = some v → np_clip r (1/2) 2 ≠ v →
      (set_formant_ratio s f r).cache_valid = false) ∧
    (get_formant s f = some v → np_clip r (1/2) 2 = v → set_formant_ratio s f r = s) ∧
    (get_formant s f = none → set_formant_ratio s f r = s) ∧
    ((set_bypass_mode s b).cache_valid = false) ∧
    ((set_parameters s p).cache_valid = false) := by
  refine ⟨?_, ?_, ?_, ?_, ?_, ?_, rfl, rfl⟩
  · intro hne
    unfold set_f0_ratio
    rw [if_pos (Ne.symm hne)]
  · intro heq
    unfold set_f0_ratio
    rw [if_neg (fun hc => hc heq.symm)]
  · intro hne
    unfold set_f0_ratio at hne ⊢
    by_cases hc : s.f0_ratio ≠ r
    · rw [if_pos hc]
    · rw [if_neg hc] at hne
      exact absurd rfl hne
  · intro hv hne
    unfold set_formant_ratio
    rw [hv]
    dsimp only
    rw [if_pos (Ne.symm hne)]
  · intro hv heq
    unfold set_formant_ratio
    rw [hv]
    dsimp only
    rw [if_neg (fun hc => hc heq.symm)]
  · intro hnone
    unfold set_formant_ratio
    rw [hnone]

/-- Counterexample for C2 as stated: set_bypass_mode called with the flag
    value already stored changes no stored value yet flips a valid cache to
    invalid. -/
theorem cache_invalidation_counterexample :
    ({ init_state 44100 with cache_valid := true } : ProcState).bypass_mode = false ∧
    ({ init_state 44100 with cache_valid := true } : ProcState).cache_valid = true ∧
    (set_bypass_mode { init_state 44100 with cache_valid := true } false).bypass_mode = false ∧
    (set_bypass_mode { init_state 44100 with cache_valid := true } false).cache_valid = false :=
  ⟨rfl, rfl, rfl, rfl⟩

theorem np_clip_eq_self {x lo hi : ℚ} (h1 : lo ≤ x) (h2 : x ≤ hi) :
    np_clip x lo hi = x := by
  unfold np_clip
  rw [max_eq_left h1, min_eq_right h2]

theorem get_formant_key {s : ProcState} {f : String} {v : ℚ}
    (hv : get_formant s f = some v) : f = "f1" ∨ f = "f2" ∨ f = "f3" := by
  unfold get_formant at hv
  by_cases h1 : f = "f1"
  · exact Or.inl h1
  · by_cases h2 : f = "f2"
    · exact Or.inr (Or.inl h2)
    · by_cases h3 : f = "f3"
      · exact Or.inr (Or.inr h3)
      · rw [if_neg h1, if_neg h2, if_neg h3] at hv
        exact Option.noConfusion hv

/-- C8: ratio inputs to set_f0_ratio, set_formant_ratio and set_parameters
    are stored as their clip to [1/2, 2], and the clip is the nearest
    boundary for an out-of-range input and the input itself otherwise. -/
theorem ratio_clamping (s : ProcState) (r : ℚ) (f : String) (v : ℚ)
    (hr : 1/2 ≤ s.f0_ratio ∧ s.f0_ratio ≤ 2) :
    ((set_f0_ratio s r).f0_ratio = np_clip r (1/2) 2) ∧
    (get_formant s f = some v →
      get_formant (set_formant_ratio s f r) f = some (np_clip r (1/2) 2)) ∧
    ((set_parameters s (Params.mk (some r) (some [(f, r)]) none)).f0_ratio =
      np_clip r (1/2) 2) ∧
    (get_formant s f = some v →
      get_formant (set_parameters s (Params.mk (some r) (some [(f, r)]) none)) f =
        some (np_clip r (1/2) 2)) ∧
    (2 < r → np_clip r (1/2) 2 = 2) ∧
    (r < 1/2 → np_clip r (1/2) 2 = 1/2) ∧
    (1/2 ≤ r → r ≤ 2 → np_clip r (1/2) 2 = r) := by
  refine ⟨?_, ?_, ?_, ?_, ?_, ?_, fun h1 h2 => np_clip_eq_self h1 h2⟩
  · unfold set_f0_ratio
    by_cases hc : s.f0_ratio ≠ r
    · rw [if_pos hc]
    · rw [if_neg hc]
      rw [not_not] at hc
      rw [np_clip_eq_self (hc ▸ hr.1) (hc ▸ hr.2), hc]
  · intro hv
    unfold set_formant_ratio
    rw [hv]
    dsimp only
    by_cases hvc : v = np_clip r (1/2) 2
    · rw [if_neg (fun hne => hne hvc)]
      rw [hv, hvc]
    · rw [if_pos hvc]
      rcases get_formant_key hv with hf | hf | hf <;> subst hf <;>
        split <;> simp [get_formant, set_formant_val]
  · show (apply_ratio_items { s with f0_ratio := np_clip r (1/2) 2 } [(f, r)]).f0_ratio =
      np_clip r (1/2) 2
    exact (apply_ratio_items_sameCore [(f, r)] _).2.2.2
  · intro hv
    rcases get_formant_key hv with hf | hf | hf <;> subst hf <;>
      simp [set_parameters, apply_ratio_items, get_formant, set_formant_val]
  · intro h
    unfold np_clip
    rw [max_eq_left (by linarith), min_eq_left (le_of_lt h)]
  · intro h
    unfold np_clip
    rw [max_eq_right (le_of_lt h), min_eq_right (by norm_num)]

/-- Witness for C8: input 3 on the fresh state stores the boundary 2. -/
theorem ratio_clamping_witness :
    (set_f0_ratio (init_state 44100) 3).f0_ratio = np_clip 3 (1/2) 2 ∧
    np_clip 3 (1/2) 2 = 2 :=
  ⟨(ratio_clamping (init_state 44100) 3 "f2" 1 (by norm_num [init_state])).1,
   by norm_num [np_clip, max_def, min_def]⟩

/-- Witness for C2: an out-of-range f0 input whose clip equals the stored
    value still invalidates, and an empty set_parameters call invalidates. -/
theorem cache_invalidation_witness :
    (set_f0_ratio { init_state 44100 with f0_ratio := 2, cache_valid := true } 3).cache_valid
      = false ∧
    (set_parameters (init_state 44100) (Params.mk none none none)).cache_valid = false :=
  ⟨(cache_invalidation { init_state 44100 with f0_ratio := 2, cache_valid := true }
      3 "f1" 1 false (Params.mk none none none)).1 (by show (3 : ℚ) ≠ 2; norm_num),
   (cache_invalidation (init_state 44100)
      3 "f1" 1 false (Params.mk none none none)).2.2.2.2.2.2.2⟩

/-- C6: in every reachable processor state with bypass mode enabled and audio
    loaded, get_processed_audio returns exactly the loaded samples converted
    sample by sample to the output dtype, for every value of the f0 ratio and
    the three formant ratios. -/
theorem bypass_returns_original (E : Extern) (sr : ℕ) (s : ProcState) (a : List ℚ)
    (hreach : Reachable E sr s) (hb : s.bypass_mode = true)
    (ha : s.audio_data = some a) :
    (get_processed_audio E s).2 = a.map E.r32 := by
  obtain ⟨h1, h2, h3⟩ := reachable_cacheInv hreach
  unfold get_processed_audio
  dsimp only
  split
  · rename_i hcv
    rw [h2 hb hcv a ha]
    rfl
  · show (some (process_audio E s)).getD [] = a.map E.r32
    rcases hf : s.original_f0 with _ | f0
    · exfalso
      rw [ha, hf] at h1
      exact Bool.noConfusion h1
    · rw [process_audio_bypass E hb ha hf]
      rfl

/-- Witness for C6: load two samples, enable bypass, read them back. -/
theorem bypass_returns_original_witness :
    (get_processed_audio extern_ok (set_bypass_mode
      (load_audio extern_ok (init_state 5) (some (ReadData.mono [1, 2], 5))).1 true)).2 =
      [1, 2].map extern_ok.r32 :=
  bypass_returns_original extern_ok 5 _ [1, 2]
    (Reachable.stepBypass true
      (Reachable.stepLoadOk (ReadData.mono [1, 2]) 5 rfl Reachable.init))
    rfl rfl

/-- C9: in every reachable processor state with no audio loaded, the read
    APIs degrade gracefully: get_processed_audio returns the empty buffer,
    duration returns 0, and get_loop_region returns (0, 0). -/
theorem no_audio_reads (E : Extern) (sr : ℕ) (s : ProcState)
    (hreach : Reachable E sr s) (ha : s.audio_data = none) :
    (get_processed_audio E s).2 = [] ∧ duration s = 0 ∧
      ∀ pl, (get_loop_region E s pl).2 = (0, 0) := by
  obtain ⟨h1, h2, h3⟩ := reachable_cacheInv hreach
  have hget : (get_processed_audio E s).2 = [] := by
    unfold get_processed_audio
    dsimp only
    split
    · rcases h3 ha with hp | hp <;> rw [hp] <;> rfl
    · show (some (process_audio E s)).getD [] = []
      rw [process_audio_no_audio E ha]
      rfl
  refine ⟨hget, ?_, ?_⟩
  · unfold duration
    rw [ha]
  · intro pl
    unfold get_loop_region
    dsimp only
    rw [hget]
    simp

/-- Witness for C9: the fresh processor state answers all three reads with
    empty results. -/
theorem no_audio_reads_witness :
    (get_processed_audio extern_stub (init_state 44100)).2 = [] ∧
    duration (init_state 44100) = 0 ∧
    (get_loop_region extern_stub (init_state 44100) (init_player 512)).2 = (0, 0) := by
  obtain ⟨h1, h2, h3⟩ := no_audio_reads extern_stub 44100 (init_state 44100) Reachable.init rfl
  exact ⟨h1, h2, h3 (init_player 512)⟩

theorem get_processed_audio_sample_rate (E : Extern) (s : ProcState) :
    (get_processed_audio E s).1.sample_rate = s.sample_rate := by
  unfold get_processed_audio
  dsimp only
  split <;> rfl

/-- C10: a seek on an empty processed buffer clips against the upper bound
    length - 1 = -1 and therefore stores play position -1, making a
    subsequent get_position return a negative time. -/
theorem seek_empty_negative (E : Extern) (s : ProcState) (pl : PlayerState) (t : ℚ)
    (ht : 0 ≤ t) (hsr : 0 < s.sample_rate)
    (hempty : (get_processed_audio E s).2 = []) :
    (seek E s pl t).2.play_position = -1 ∧
      get_position (seek E s pl t).1 (seek E s pl t).2 < 0 := by
  have hpos : (seek E s pl t).2.play_position = -1 := by
    unfold seek
    dsimp only
    rw [hempty]
    show np_clip_int (py_int (t * (s.sample_rate : ℚ))) 0 ((([] : List ℚ).length : ℤ) - 1) = -1
    unfold np_clip_int
    simp only [List.length_nil]
    omega
  refine ⟨hpos, ?_⟩
  unfold get_position
  rw [hpos, show (seek E s pl t).1 = (get_processed_audio E s).1 from rfl,
    get_processed_audio_sample_rate]
  apply div_neg_of_neg_of_pos
  · norm_num
  · exact_mod_cast hsr

/-- Witness for C10: seeking to 0 seconds on the fresh processor stores -1
    and reports a negative position. -/
theorem seek_empty_negative_witness :
    (seek extern_stub (init_state 44100) (init_player 512) 0).2.play_position = -1 ∧
    get_position (seek extern_stub (init_state 44100) (init_player 512) 0).1
      (seek extern_stub (init_state 44100) (init_player 512) 0).2 < 0 :=
  seek_empty_negative extern_stub (init_state 44100) (init_player 512) 0 le_rfl
    (by decide) rfl

/-- C5 (amended): load_audio surfaces every failure as false and never
    propagates; on a read failure the prior state is fully retained, but when
    the read succeeds and the analysis then raises (as on an empty signal),
    audio_data has already been replaced by the newly converted samples while
    only the analysis results and the cache retain their prior values. -/
theorem load_failure_behavior (E : Extern) (s : ProcState) (d : ReadData) (fsr : ℕ) :
    (load_audio E s none = (s, false)) ∧
    (E.analyze (load_convert s d fsr) s.sample_rate = none →
      load_audio E s (some (d, fsr)) =
        ({ s with audio_data := some (load_convert s d fsr) }, false)) := by
  refine ⟨rfl, ?_⟩
  intro hna
  unfold load_audio
  dsimp only
  rw [hna]

/-- A state in which a one-sample file has been loaded and analyzed. -/
def prior_loaded : ProcState :=
  { init_state 44100 with
    audio_data := some [1], original_f0 := some [0],
    original_sp := some [[1]], original_ap := some [[0]], time_axis := some [0] }

/-- Counterexample for C5 as stated: with audio previously loaded, a load
    whose file read succeeds with an empty signal and whose analysis then
    raises returns false yet leaves audio_data replaced by the new converted
    signal, so the failing call does partially mutate engine state. -/
theorem load_failure_counterexample :
    (load_audio extern_stub prior_loaded (some (ReadData.mono [], 44100))).2 = false ∧
    (load_audio extern_stub prior_loaded (some (ReadData.mono [], 44100))).1.audio_data ≠
      prior_loaded.audio_data := by
  constructor
  · rfl
  · show some ([] : List ℚ) ≠ some [1]
    simp

/-- Witness for C5: both failure shapes at concrete inputs. -/
theorem load_failure_behavior_witness :
    load_audio extern_stub prior_loaded none = (prior_loaded, false) ∧
    load_audio extern_stub prior_loaded (some (ReadData.mono [], 44100)) =
      ({ prior_loaded with
          audio_data := some (load_convert prior_loaded (ReadData.mono []) 44100) }, false) :=
  ⟨(load_failure_behavior extern_stub prior_loaded (ReadData.mono []) 44100).1,
   (load_failure_behavior extern_stub prior_loaded (ReadData.mono []) 44100).2 rfl⟩

theorem py_int_of_nonneg {q : ℚ} (h : 0 ≤ q) : py_int q = ⌊q⌋ :=
  if_pos h

theorem py_int_eval {q : ℚ} {n : ℤ} (h0 : 0 ≤ q) (h1 : (n : ℚ) ≤ q) (h2 : q < n + 1) :
    py_int q = n := by
  rw [py_int_of_nonneg h0]
  exact Int.floor_eq_iff.mpr ⟨h1, h2⟩

theorem eff_sample_rate_nonneg (s : ProcState) (L : ℕ) : 0 ≤ eff_sample_rate s L := by
  unfold eff_sample_rate
  split
  · rename_i h
    exact div_nonneg (Nat.cast_nonneg L) (le_of_lt h)
  · exact Nat.cast_nonneg _

theorem py_int_nonneg {q : ℚ} (h : 0 ≤ q) : 0 ≤ py_int q := by
  rw [py_int_of_nonneg h]
  exact Int.floor_nonneg.mpr h

/-- C4 (amended): seek converts seconds with the nominal engine sample rate,
    not the effective rate, truncates, and clamps to [0, length - 1]. -/
theorem seek_nominal_rate (E : Extern) (s : ProcState) (pl : PlayerState) (t : ℚ)
    (ht : 0 ≤ t) :
    (seek E s pl t).2.play_position =
      np_clip_int ⌊t * (s.sample_rate : ℚ)⌋ 0
        (((get_processed_audio E s).2.length : ℤ) - 1) := by
  unfold seek
  dsimp only
  rw [py_int_of_nonneg (mul_nonneg ht (Nat.cast_nonneg _))]

/-- Processor state whose vocoder output has half as many samples as the
    loaded audio, so the effective rate 1 differs from the nominal rate 2. -/
def proc_resampled : ProcState :=
  { init_state 2 with
    audio_data := some (List.replicate 20 0), original_f0 := some [0],
    processed_audio := some (List.replicate 10 0), cache_valid := true }

/-- Witness for C4: a concrete seek lands on the nominal-rate sample. -/
theorem seek_nominal_rate_witness :
    (seek extern_stub proc_resampled (init_player 512) 3).2.play_position =
      np_clip_int ⌊(3 : ℚ) * ((proc_resampled.sample_rate : ℕ) : ℚ)⌋ 0
        (((get_processed_audio extern_stub proc_resampled).2.length : ℤ) - 1) :=
  seek_nominal_rate extern_stub proc_resampled (init_player 512) 3 (by norm_num)

/-- Counterexample for C4 as stated: with processed length 10, original
    duration 10 s and nominal rate 2, seeking to 3 s stores sample 6
    (nominal-rate conversion), not the effective-rate prediction 3. -/
theorem seek_effective_rate_counterexample :
    duration proc_resampled = 10 ∧
    (get_processed_audio extern_stub proc_resampled).2.length = 10 ∧
    (seek extern_stub proc_resampled (init_player 512) 3).2.play_position = 6 ∧
    np_clip_int ⌊(3 : ℚ) * eff_sample_rate proc_resampled 10⌋ 0 9 = 3 ∧
    (6 : ℤ) ≠ 3 := by
  have hdur : duration proc_resampled = 10 := by
    norm_num [duration, proc_resampled, init_state]
  refine ⟨hdur, rfl, ?_, ?_, by norm_num⟩
  · unfold seek
    dsimp only
    have h6 : py_int ((3 : ℚ) * ((proc_resampled.sample_rate : ℕ) : ℚ)) = 6 := by
      refine py_int_eval ?_ ?_ ?_ <;> norm_num [proc_resampled, init_state]
    rw [show (get_processed_audio extern_stub proc_resampled).2 = List.replicate 10 0
        from rfl, h6]
    show np_clip_int 6 0 (((List.replicate (10 : ℕ) (0 : ℚ)).length : ℤ) - 1) = 6
    rw [List.length_replicate]
    unfold np_clip_int
    omega
  · have hesr : eff_sample_rate proc_resampled 10 = 1 := by
      rw [eff_sample_rate, hdur]
      norm_num
    rw [hesr]
    have h3 : ⌊(3 : ℚ) * 1⌋ = 3 := by
      norm_num
    rw [h3]
    unfold np_clip_int
    omega

/-- C3 (amended): for set_loop_region with audio loaded and end_time > 0,
    writing ls1 for the clamped start sample and le0 for the derived end
    sample: when le0 is at least 1 the stored region is
    (ls1, max (ls1 + 1) (min le0 L)), hence 0 <= loop_start < loop_end <= L
    and the swap branch never fires — when le0 < ls1 the end is clamped up
    to ls1 + 1 instead of being swapped with the start; when le0 rounds down
    to 0 the stored end is the end-of-audio sentinel 0. -/
theorem loop_region_clamping (E : Extern) (s : ProcState) (pl : PlayerState)
    (start_time end_time : ℚ) (L : ℕ)
    (hL : (get_processed_audio E s).2.length = L) (hpos : 0 < L)
    (he : 0 < end_time) :
    (1 ≤ py_int (end_time * eff_sample_rate s L) →
      (set_loop_region E s pl start_time end_time).2.loop_start =
        max 0 (min (py_int (max 0 start_time * eff_sample_rate s L)) ((L : ℤ) - 1)) ∧
      (set_loop_region E s pl start_time end_time).2.loop_end =
        max (max 0 (min (py_int (max 0 start_time * eff_sample_rate s L)) ((L : ℤ) - 1)) + 1)
          (min (py_int (end_time * eff_sample_rate s L)) (L : ℤ)) ∧
      0 ≤ (set_loop_region E s pl start_time end_time).2.loop_start ∧
      (set_loop_region E s pl start_time end_time).2.loop_start <
        (set_loop_region E s pl start_time end_time).2.loop_end ∧
      (set_loop_region E s pl start_time end_time).2.loop_end ≤ (L : ℤ)) ∧
    (py_int (end_time * eff_sample_rate s L) ≤ 0 →
      (set_loop_region E s pl start_time end_time).2.loop_start =
        max 0 (min (py_int (max 0 start_time * eff_sample_rate s L)) ((L : ℤ) - 1)) ∧
      (set_loop_region E s pl start_time end_time).2.loop_end = 0) := by
  have hle0 : 0 ≤ py_int (end_time * eff_sample_rate s L) :=
    py_int_nonneg (mul_nonneg (le_of_lt he) (eff_sample_rate_nonneg s L))
  constructor
  · intro h1
    unfold set_loop_region
    dsimp only
    rw [hL, if_pos hpos, if_pos he]
    generalize hA : py_int (max 0 start_time * eff_sample_rate s L) = A
    generalize hB : py_int (end_time * eff_sample_rate s L) = B
    rw [hB] at h1
    rw [if_pos (show (0 : ℤ) < B by omega)]
    split
    · rename_i hsw
      exfalso
      omega
    · refine ⟨rfl, rfl, ?_, ?_, ?_⟩
      · show (0 : ℤ) ≤ max 0 (min A ((L : ℤ) - 1))
        omega
      · show max 0 (min A ((L : ℤ) - 1)) <
          max (max 0 (min A ((L : ℤ) - 1)) + 1) (min B (L : ℤ))
        omega
      · show max (max 0 (min A ((L : ℤ) - 1)) + 1) (min B (L : ℤ)) ≤ (L : ℤ)
        omega
  · intro h0
    have h00 : py_int (end_time * eff_sample_rate s L) = 0 := by omega
    unfold set_loop_region
    dsimp only
    rw [hL, if_pos hpos, if_pos he, h00]
    simp only [lt_self_iff_false, if_false, false_and]
    refine ⟨?_, ?_⟩ <;> first | trivial | rfl

/-- Processor state with ten loaded samples at nominal rate 1 and a valid
    ten-sample processed cache, so the effective rate is 1. -/
def proc_loaded10 : ProcState :=
  { init_state 1 with
    audio_data := some (List.replicate 10 0), original_f0 := some [0],
    processed_audio := some (List.replicate 10 0), cache_valid := true }

theorem proc_loaded10_esr : eff_sample_rate proc_loaded10 10 = 1 := by
  have hdur : duration proc_loaded10 = 10 := by
    norm_num [duration, proc_loaded10, init_state]
  rw [eff_sample_rate, hdur]
  norm_num

/-- Witness for C3: region (1 s, 3 s) on ten samples at effective rate 1 is
    stored as samples (1, 3). -/
theorem loop_region_clamping_witness :
    (set_loop_region extern_stub proc_loaded10 (init_player 512) 1 3).2.loop_start = 1 ∧
    (set_loop_region extern_stub proc_loaded10 (init_player 512) 1 3).2.loop_end = 3 := by
  have h1 : py_int ((1 : ℚ) * eff_sample_rate proc_loaded10 10) = 1 := by
    rw [proc_loaded10_esr]
    exact py_int_eval (by norm_num) (by norm_num) (by norm_num)
  have h3 : py_int ((3 : ℚ) * eff_sample_rate proc_loaded10 10) = 3 := by
    rw [proc_loaded10_esr]
    exact py_int_eval (by norm_num) (by norm_num) (by norm_num)
  have hmax : max 0 (1 : ℚ) = 1 := by norm_num
  obtain ⟨ha, hb, -⟩ :=
    (loop_region_clamping extern_stub proc_loaded10 (init_player 512) 1 3 10 rfl
      (by norm_num) (by norm_num)).1 (by rw [h3]; omega)
  rw [ha, hb, hmax, h1, h3]
  constructor <;> omega

/-- Counterexample for C3 as stated: end 2 s before start 5 s (derived
    samples 2 < 5) is stored as (5, 6) — the end clamped up to start + 1 —
    not as the swapped pair (2, 5). -/
theorem loop_region_counterexample :
    py_int ((2 : ℚ) * eff_sample_rate proc_loaded10 10) <
      py_int (max 0 (5 : ℚ) * eff_sample_rate proc_loaded10 10) ∧
    (set_loop_region extern_stub proc_loaded10 (init_player 512) 5 2).2.loop_start = 5 ∧
    (set_loop_region extern_stub proc_loaded10 (init_player 512) 5 2).2.loop_end = 6 := by
  have hmax : max 0 (5 : ℚ) = 5 := by norm_num
  have h2 : py_int ((2 : ℚ) * eff_sample_rate proc_loaded10 10) = 2 := by
    rw [proc_loaded10_esr]
    exact py_int_eval (by norm_num) (by norm_num) (by norm_num)
  have h5 : py_int (max 0 (5 : ℚ) * eff_sample_rate proc_loaded10 10) = 5 := by
    rw [hmax, proc_loaded10_esr]
    exact py_int_eval (by norm_num) (by norm_num) (by norm_num)
  refine ⟨by rw [h2, h5]; omega, ?_⟩
  unfold set_loop_region
  dsimp only
  rw [show (get_processed_audio extern_stub proc_loaded10).2 = List.replicate 10 0 from rfl,
    List.length_replicate]
  rw [if_pos (by norm_num : 0 < 10), if_pos (by norm_num : (0 : ℚ) < 2), h2, h5]
  norm_num

/-- C7: in the audio callback with looping enabled, the position inside the
    effective loop region, fewer samples remaining to the effective end than
    the block needs, and a positive loop length, the crossfade length used is
    min of the configured-milliseconds-derived sample count, the samples
    available before the wrap, and a quarter of the loop length; and the new
    play position is effectiveStart plus (blockSize minus samplesAvailable)
    modulo loopLength. -/
theorem callback_loop_wrap (sr : ℕ) (pl : PlayerState) (audio : List ℚ) (frames : ℕ)
    (hloop : pl.loop_enabled = true)
    (hin : eff_loop_start pl audio.length ≤ pl.play_position)
    (hwrap : eff_loop_end pl audio.length - pl.play_position < (frames : ℤ))
    (hll : 0 < eff_loop_end pl audio.length - eff_loop_start pl audio.length) :
    (audio_callback_core sr pl audio frames).crossfade_len =
      min (py_int (pl.loop_crossfade_ms * (sr : ℚ) / 1000))
        (min (eff_loop_end pl audio.length - pl.play_position)
          (Int.fdiv (eff_loop_end pl audio.length - eff_loop_start pl audio.length) 4)) ∧
    (audio_callback_core sr pl audio frames).play_position =
      eff_loop_start pl audio.length +
        Int.emod ((frames : ℤ) - (eff_loop_end pl audio.length - pl.play_position))
          (eff_loop_end pl audio.length - eff_loop_start pl audio.length) := by
  unfold audio_callback_core
  dsimp only
  rw [if_pos ⟨hloop, hin⟩, if_neg (not_le.mpr hwrap), if_pos hll]
  exact ⟨rfl, rfl⟩

/-- Player state sitting two samples before the end of the loop region
    (2, 8) over a ten-sample buffer. -/
def pl_wrap : PlayerState :=
  { init_player 512 with loop_start := 2, loop_end := 8, play_position := 6 }

/-- Witness for C7: a four-frame block from position 6 wraps in region (2, 8)
    with crossfade length min(50, 2, 1) = 1 and new position 2 + (4 - 2) mod 6
    = 4. -/
theorem callback_loop_wrap_witness :
    (audio_callback_core 1000 pl_wrap (List.replicate 10 0) 4).crossfade_len = 1 ∧
    (audio_callback_core 1000 pl_wrap (List.replicate 10 0) 4).play_position = 4 := by
  have hend : eff_loop_end pl_wrap (List.replicate (10 : ℕ) (0 : ℚ)).length = 8 := by
    rw [eff_loop_end, List.length_replicate]
    norm_num [pl_wrap, init_player]
  have hstart : eff_loop_start pl_wrap (List.replicate (10 : ℕ) (0 : ℚ)).length = 2 := by
    rw [eff_loop_start, hend]
    norm_num [pl_wrap, init_player, min_def]
  have h := callback_loop_wrap 1000 pl_wrap (List.replicate 10 0) 4 rfl
    (by rw [hstart]; norm_num [pl_wrap, init_player])
    (by rw [hend]; norm_num [pl_wrap, init_player])
    (by rw [hend, hstart]; norm_num)
  rw [h.1, h.2, hend, hstart]
  have hcf : py_int (pl_wrap.loop_crossfade_ms * ((1000 : ℕ) : ℚ) / 1000) = 50 := by
    refine py_int_eval ?_ ?_ ?_ <;> norm_num [pl_wrap, init_player]
  rw [hcf]
  show min 50 (min ((8 : ℤ) - pl_wrap.play_position) (Int.fdiv ((8 : ℤ) - 2) 4)) = 1 ∧
    (2 : ℤ) + Int.emod ((4 : ℤ) - ((8 : ℤ) - pl_wrap.play_position)) ((8 : ℤ) - 2) = 4
  have hp : pl_wrap.play_position = 6 := rfl
  rw [hp]
  constructor
  · rw [show Int.fdiv ((8 : ℤ) - 2) 4 = 1 from by decide]
    omega
  · rw [show Int.emod ((4 : ℤ) - ((8 : ℤ) - 6)) ((8 : ℤ) - 2) = 2 from by decide]
    omega

end KawaiiVoice
